import Mathlib

/-!
Shallow embedding of `churn_library.py` (customer-churn modeling pipeline)
together with proofs about the properties of its functions.

A pandas DataFrame is modelled column-oriented: a list of
(column name, column cells) pairs, where a cell is either a string or a
rational number.  Row alignment is positional: row `i` of the table is the
`i`-th entry of every column.  `getCol`/`setCol` model pandas column read
and column assignment (assignment replaces an existing column in place and
appends a fresh column at the end, as pandas does).
-/

inductive Value where
  | str : String → Value
  | num : ℚ → Value
deriving DecidableEq, Repr

abbrev DataFrame := List (String × List Value)

/-- Reading column `name` of a dataframe (`df[name]`); `none` models the
pandas `KeyError` raised on a missing column. -/
def getCol : DataFrame → String → Option (List Value)
  | [], _ => none
  | (n, vs) :: rest, name => if n = name then some vs else getCol rest name

/-- Column assignment `df[name] = vals`: replaces the column in place when
it exists, appends it as the last column otherwise. -/
def setCol : DataFrame → String → List Value → DataFrame
  | [], name, vals => [(name, vals)]
  | (n, vs) :: rest, name, vals =>
      if n = name then (n, vals) :: rest else (n, vs) :: setCol rest name vals

/-- All columns of the dataframe hold `n` cells (a well-formed `n`-row table). -/
def Wf (df : DataFrame) (n : Nat) : Prop := ∀ p ∈ df, p.2.length = n

instance (df : DataFrame) (n : Nat) : Decidable (Wf df n) :=
  decidable_of_iff (∀ p ∈ df, p.2.length = n) Iff.rfl

/-- The lambda of `import_data` (line 39 of the source):
`0 if val == "Existing Customer" else 1`. -/
def churnOfFlag (v : Value) : Value :=
  if v = Value.str "Existing Customer" then Value.num 0 else Value.num 1

/-- `import_data`, lines 25-41 of the source, with the CSV already parsed
into a dataframe: derives the `Churn` column by applying `churnOfFlag` to
the `Attrition_Flag` column.  A missing `Attrition_Flag` column propagates
a `KeyError`. -/
def import_data (raw : DataFrame) : Except String DataFrame :=
  match getCol raw "Attrition_Flag" with
  | none => .error "KeyError: Attrition_Flag"
  | some flags => .ok (setCol raw "Churn" (flags.map churnOfFlag))

/-- Numeric content of a cell; the `Churn` column is always numeric
(0 or 1), so the string case is never hit by the pipeline. -/
def valToQ : Value → ℚ
  | .num q => q
  | .str _ => 0

/-- Arithmetic mean of a list of rationals. -/
def meanQ (qs : List ℚ) : ℚ := qs.sum / (qs.length : ℚ)

/-- `encoder_df.groupby(category).mean()['Churn']` looked up at group `v`
(lines 99 and 102 of the source): the mean of the `Churn` cells over the
rows whose `category` cell equals `v`. -/
def groupMean (cats churn : List Value) (v : Value) : ℚ :=
  meanQ (((cats.zip churn).filter (fun p => decide (p.1 = v))).map (fun p => valToQ p.2))

/-- The `column_lst` built by the inner loop of `encoder_helper`
(lines 101-102): each row is mapped to the mean `Churn` of its group. -/
def encodedCol (cats churn : List Value) : List Value :=
  cats.map (fun v => Value.num (groupMean cats churn v))

/-- Name of the column written for `category` (lines 104-107): with a
non-empty (truthy) `response` the suffixed name `category + '_' + response`,
otherwise the category column itself is overwritten. -/
def encTarget (category response : String) : String :=
  if response = "" then category else category ++ "_" ++ response

/-- One iteration of the `for category in category_lst` loop of
`encoder_helper` (lines 97-107): a missing `category` or `Churn` column
propagates a `KeyError`. -/
def encodeCategory (df : DataFrame) (category response : String) : Except String DataFrame :=
  match getCol df category, getCol df "Churn" with
  | some cats, some churn =>
      .ok (setCol df (encTarget category response) (encodedCol cats churn))
  | none, _ => .error ("KeyError: " ++ category)
  | some _, none => .error "KeyError: Churn"

/-- The whole `for category in category_lst` loop of `encoder_helper`. -/
def encoderLoop : DataFrame → List String → String → Except String DataFrame
  | df, [], _ => .ok df
  | df, c :: rest, response =>
      match encodeCategory df c response with
      | .ok df2 => encoderLoop df2 rest response
      | .error e => .error e

/-- `dataframe.copy(deep=True)` (line 95): a fresh object holding the same
cells. -/
def deepCopy (df : DataFrame) : DataFrame := df.map (fun p => (p.1, p.2.map (fun v => v)))

/-- `encoder_helper` (lines 80-109): deep-copies the input dataframe and
runs the encoding loop on the copy. -/
def encoder_helper (dataframe : DataFrame) (category_lst : List String) (response : String) :
    Except String DataFrame :=
  encoderLoop (deepCopy dataframe) category_lst response

/-- A call to `encoder_helper` with the caller's aliasing made explicit:
the first component is the caller's dataframe after the call (every write
of the loop targets the deep copy, so it is threaded through unchanged),
the second is the returned dataframe. -/
def encoder_helper_call (dataframe : DataFrame) (category_lst : List String)
    (response : String) : DataFrame × Except String DataFrame :=
  (dataframe, encoder_helper dataframe category_lst response)

/-- `cat_columns` of `perform_feature_engineering` (lines 126-131). -/
def cat_columns : List String :=
  ["Gender", "Education_Level", "Marital_Status", "Income_Category", "Card_Category"]

/-- `keep_cols` of `perform_feature_engineering` (lines 146-165). -/
def keep_cols : List String :=
  ["Customer_Age", "Dependent_count", "Months_on_book", "Total_Relationship_Count",
   "Months_Inactive_12_mon", "Contacts_Count_12_mon", "Credit_Limit",
   "Total_Revolving_Bal", "Avg_Open_To_Buy", "Total_Amt_Chng_Q4_Q1",
   "Total_Trans_Amt", "Total_Trans_Ct", "Total_Ct_Chng_Q4_Q1",
   "Avg_Utilization_Ratio", "Gender_Churn", "Education_Level_Churn",
   "Marital_Status_Churn", "Income_Category_Churn", "Card_Category_Churn"]

/-- `features[keep_cols] = encoded_df[keep_cols]` on the empty dataframe
`features` (lines 143 and 168): selects the named columns in the given
order; a missing column propagates a `KeyError`. -/
def selectCols (df : DataFrame) : List String → Except String DataFrame
  | [] => .ok []
  | n :: rest =>
      match getCol df n with
      | none => .error ("KeyError: " ++ n)
      | some vs =>
          match selectCols df rest with
          | .ok f => .ok ((n, vs) :: f)
          | .error e => .error e

/-- A linear congruential step, used to derive the pseudo-random
permutation of the modelled shuffler. -/
def lcg (x : Nat) : Nat := (x * 1103515245 + 12345) % 2147483648

/-- Sort key of index `i` under `seed`. -/
def shuffleKey (seed i : Nat) : Nat := lcg (seed + i * 2654435761)

/-- Model of the seeded shuffle performed by
`sklearn.model_selection.train_test_split(random_state=seed)`: a
deterministic pseudo-random permutation of `[0, n)` computed from the seed
alone.  The exact numpy permutation is opaque library behaviour; every
property used here (it is a permutation of the row indices and a pure
function of `(seed, n)`) is shared with the real one. -/
def shufflePerm (seed n : Nat) : List Nat :=
  (List.range n).mergeSort (fun i j =>
    decide (shuffleKey seed i < shuffleKey seed j ∨
      (shuffleKey seed i = shuffleKey seed j ∧ i ≤ j)))

/-- Row selection `X.iloc[idxs]` for a list of row indices (the indices
handed to it by the split are always in range; out-of-range indices
default to a zero cell). -/
def selectIdx (vs : List Value) (idxs : List Nat) : List Value :=
  idxs.map (fun i => vs.getD i (Value.num 0))

/-- Row selection applied to every column of a dataframe. -/
def selectRows (df : DataFrame) (idxs : List Nat) : DataFrame :=
  df.map (fun p => (p.1, selectIdx p.2 idxs))

/-- The `test_size=0.3` argument of the split (line 172). -/
def test_size : ℚ := mkRat 3 10

/-- Number of test rows for an `n`-row input: `ceil(test_size * n)`,
as computed by sklearn for a fractional `test_size`. -/
def testCount (n : Nat) : Nat := Nat.ceil (test_size * (n : ℚ))

/-- `sklearn.model_selection.train_test_split(features, label, test_size,
random_state)` (lines 171-172): shuffles the row indices with the seed
(`entropy` stands for ambient randomness and is consulted only when no
`random_state` is passed), takes `ceil(test_size * n)` rows as the test
split and the remaining rows as the train split, applying the same index
lists to the features and to the label. -/
def train_test_split (entropy : Nat) (randomState : Option Nat) (tsize : ℚ)
    (features : DataFrame) (label : List Value) :
    DataFrame × DataFrame × List Value × List Value :=
  let n := label.length
  let seed := randomState.getD entropy
  let perm := shufflePerm seed n
  let nTest := Nat.ceil (tsize * (n : ℚ))
  let testIdx := perm.take nTest
  let trainIdx := perm.drop nTest
  (selectRows features trainIdx, selectRows features testIdx,
   selectIdx label trainIdx, selectIdx label testIdx)

/-- `perform_feature_engineering` (lines 112-174): encodes the five
categorical columns, extracts the `Churn` label, selects the 19 feature
columns and splits 70/30 with `random_state=42`. -/
def perform_feature_engineering (entropy : Nat) (dataframe : DataFrame) (response : String) :
    Except String (DataFrame × DataFrame × List Value × List Value) :=
  match encoder_helper dataframe cat_columns response with
  | .error e => .error e
  | .ok encoded_df =>
      match getCol encoded_df "Churn" with
      | none => .error "KeyError: Churn"
      | some label =>
          match selectCols encoded_df keep_cols with
          | .error e => .error e
          | .ok features => .ok (train_test_split entropy (some 42) test_size features label)

/-- One `plt.text(x, y, content)` call: a text element anchored at the
given figure coordinates (larger `y` renders higher on the figure). -/
structure TextElem where
  x : ℚ
  y : ℚ
  content : String
deriving DecidableEq, Repr

/-- The figure saved to `images/results/rf_results.png` by
`classification_report_image` (lines 200-215).  `report y p` stands for
the opaque string produced by `sklearn.metrics.classification_report`.
The coordinates are the source literals (`mkRat 125 100` is `1.25`, and
so on). -/
def rf_results_figure (report : List Value → List Value → String)
    (y_train y_test y_train_preds_rf y_test_preds_rf : List Value) : List TextElem :=
  [⟨mkRat 1 100, mkRat 125 100, "Random Forest Train"⟩,
   ⟨mkRat 1 100, mkRat 5 100, report y_test y_test_preds_rf⟩,
   ⟨mkRat 1 100, mkRat 60 100, "Random Forest Test"⟩,
   ⟨mkRat 1 100, mkRat 70 100, report y_train y_train_preds_rf⟩]

/-- The figure saved to `images/results/logistic_results.png` by
`classification_report_image` (lines 220-235). -/
def logistic_results_figure (report : List Value → List Value → String)
    (y_train y_test y_train_preds_lr y_test_preds_lr : List Value) : List TextElem :=
  [⟨mkRat 1 100, mkRat 125 100, "Logistic Regression Train"⟩,
   ⟨mkRat 1 100, mkRat 5 100, report y_train y_train_preds_lr⟩,
   ⟨mkRat 1 100, mkRat 60 100, "Logistic Regression Test"⟩,
   ⟨mkRat 1 100, mkRat 70 100, report y_test y_test_preds_lr⟩]

/-- The element of a figure that renders highest (largest `y`). -/
def topmostElem : List TextElem → Option TextElem
  | [] => none
  | e :: rest =>
      match topmostElem rest with
      | none => some e
      | some b => if b.y ≤ e.y then some e else some b

/-- The text block rendered directly under the heading with the given
content: among all elements strictly below the heading, the one that
renders highest. -/
def blockUnder (fig : List TextElem) (heading : String) : Option String :=
  match fig.find? (fun e => e.content == heading) with
  | none => none
  | some h => (topmostElem (fig.filter (fun e => decide (e.y < h.y)))).map (fun e => e.content)

/-- Comparator of the modelled `np.argsort`: index `i` comes before `j`
when its score is smaller, with ties broken by index. -/
def argsortLe (xs : List ℚ) (i j : Nat) : Bool :=
  decide (xs.getD i 0 < xs.getD j 0 ∨ (xs.getD i 0 = xs.getD j 0 ∧ i ≤ j))

/-- `np.argsort(importances)` (line 253): the indices ordered by
ascending score.  numpy leaves the relative order of tied scores
unspecified; the model breaks ties by index, which is one admissible
outcome. -/
def npArgsort (xs : List ℚ) : List Nat :=
  (List.range xs.length).mergeSort (argsortLe xs)

/-- A bar chart: the height of bar `i` is `heights[i]` and its x-axis
label is `labels[i]`. -/
structure BarChart where
  heights : List ℚ
  labels : List String
deriving Repr

/-- `feature_importance_plot` (lines 238-273): `importances` stands for
`model.best_estimator_.feature_importances_` and `columns` for
`features.columns`.  The indices are argsorted descending
(`np.argsort(importances)[::-1]`), the bars are the scores in that order
(`importances[indices]`) and the labels the column names in the same
order (`[features.columns[i] for i in indices]`). -/
def feature_importance_plot (importances : List ℚ) (columns : List String) : BarChart :=
  let indices := (npArgsort importances).reverse
  ⟨indices.map (fun i => importances.getD i 0),
   indices.map (fun i => columns.getD i "")⟩

/-- The keyword arguments of the `RandomForestClassifier(...)` call on
line 288 of the source; a missing keyword leaves the sklearn default,
which is `None` for `random_state`. -/
structure RandomForestClassifierArgs where
  random_state : Option Nat
  n_jobs : Option Int
deriving DecidableEq, Repr

/-- The keyword arguments of the `LogisticRegression(...)` call on
line 289 of the source; `random_state` is a keyword the class accepts,
and it is not passed, so it keeps its sklearn default `None`. -/
structure LogisticRegressionArgs where
  random_state : Option Nat
  n_jobs : Option Int
  max_iter : Nat
deriving DecidableEq, Repr

/-- `rfc = RandomForestClassifier(random_state=42, n_jobs=-1)` (line 288). -/
def rfc : RandomForestClassifierArgs := ⟨some 42, some (-1)⟩

/-- `lrc = LogisticRegression(n_jobs=-1, max_iter=1000)` (line 289):
no `random_state` keyword is passed. -/
def lrc : LogisticRegressionArgs := ⟨none, some (-1), 1000⟩

/-- A two-row raw table used to instantiate theorems on concrete data. -/
def sampleRaw : DataFrame :=
  [("Attrition_Flag", [Value.str "Existing Customer", Value.str "Attrited Customer"])]

/-- The `Attrition_Flag` column of `sampleRaw`. -/
def sampleFlags : List Value := [Value.str "Existing Customer", Value.str "Attrited Customer"]

/-- A two-row table with one categorical column and a `Churn` column. -/
def sampleEnc : DataFrame :=
  [("Gender", [Value.str "M", Value.str "F"]), ("Churn", [Value.num 0, Value.num 1])]

/-- A table holding all 19 feature columns (each empty). -/
def sampleFeatures : DataFrame := keep_cols.map (fun c => (c, []))

/-- A two-row table carrying the full raw schema of the pipeline: the
five categorical columns, `Churn`, and the 14 raw numeric feature
columns, so that `perform_feature_engineering` succeeds on it. -/
def sampleWide : DataFrame :=
  [("Gender", [Value.str "M", Value.str "F"]),
   ("Education_Level", [Value.str "HS", Value.str "College"]),
   ("Marital_Status", [Value.str "Single", Value.str "Married"]),
   ("Income_Category", [Value.str "Low", Value.str "High"]),
   ("Card_Category", [Value.str "Blue", Value.str "Gold"]),
   ("Churn", [Value.num 0, Value.num 1]),
   ("Customer_Age", [Value.num 45, Value.num 50]),
   ("Dependent_count", [Value.num 2, Value.num 1]),
   ("Months_on_book", [Value.num 36, Value.num 24]),
   ("Total_Relationship_Count", [Value.num 3, Value.num 4]),
   ("Months_Inactive_12_mon", [Value.num 1, Value.num 2]),
   ("Contacts_Count_12_mon", [Value.num 2, Value.num 3]),
   ("Credit_Limit", [Value.num 10000, Value.num 5000]),
   ("Total_Revolving_Bal", [Value.num 500, Value.num 800]),
   ("Avg_Open_To_Buy", [Value.num 9500, Value.num 4200]),
   ("Total_Amt_Chng_Q4_Q1", [Value.num 1, Value.num 1]),
   ("Total_Trans_Amt", [Value.num 4000, Value.num 3000]),
   ("Total_Trans_Ct", [Value.num 60, Value.num 50]),
   ("Total_Ct_Chng_Q4_Q1", [Value.num 1, Value.num 1]),
   ("Avg_Utilization_Ratio", [Value.num 1, Value.num 1])]

/-- A one-row table with the five categorical columns and `Churn`, but
none of the `_Churn`-suffixed encoded columns. -/
def sampleFull : DataFrame :=
  [("Gender", [Value.str "M"]), ("Education_Level", [Value.str "HS"]),
   ("Marital_Status", [Value.str "Single"]), ("Income_Category", [Value.str "Low"]),
   ("Card_Category", [Value.str "Blue"]), ("Churn", [Value.num 1])]

theorem getCol_setCol_same (df : DataFrame) (name : String) (vals : List Value) :
    getCol (setCol df name vals) name = some vals := by
  induction df with
  | nil => simp [getCol, setCol]
  | cons p rest ih =>
    obtain ⟨n, vs⟩ := p
    by_cases h : n = name
    · simp [getCol, setCol, h]
    · simp [getCol, setCol, h, ih]

theorem getCol_setCol_other (df : DataFrame) (name other : String) (vals : List Value)
    (h : name ≠ other) : getCol (setCol df name vals) other = getCol df other := by
  induction df with
  | nil => simp [getCol, setCol, h]
  | cons p rest ih =>
    obtain ⟨n, vs⟩ := p
    by_cases hn : n = name
    · subst hn
      simp [getCol, setCol, h]
    · simp [getCol, setCol, hn, ih]

theorem getCol_mem (df : DataFrame) (name : String) (vs : List Value)
    (h : getCol df name = some vs) : (name, vs) ∈ df := by
  induction df with
  | nil => simp [getCol] at h
  | cons p rest ih =>
    obtain ⟨n, ws⟩ := p
    by_cases hn : n = name
    · subst hn
      simp [getCol] at h
      simp [h]
    · simp [getCol, hn] at h
      exact List.mem_cons_of_mem _ (ih h)

theorem setCol_wf (df : DataFrame) (name : String) (vals : List Value) (n : Nat)
    (hdf : Wf df n) (hv : vals.length = n) : Wf (setCol df name vals) n := by
  induction df with
  | nil =>
    intro p hp
    simp [setCol] at hp
    simp [hp, hv]
  | cons q rest ih =>
    obtain ⟨m, vs⟩ := q
    by_cases hm : m = name
    · intro p hp
      simp [setCol, hm] at hp
      rcases hp with hp | hp
      · simp [hp, hv]
      · exact hdf p (List.mem_cons_of_mem _ hp)
    · intro p hp
      simp only [setCol, if_neg hm] at hp
      rcases List.mem_cons.mp hp with hp | hp
      · exact hdf p (hp ▸ List.mem_cons_self _ _)
      · exact ih (fun q hq => hdf q (List.mem_cons_of_mem _ hq)) p hp

/-- Claim C1: for every row of the table returned by `import_data`, the
derived `Churn` cell equals 1 iff the row's `Attrition_Flag` differs from
"Existing Customer" and equals 0 otherwise; the `Churn` column is exactly
`Attrition_Flag` mapped through the pure function `churnOfFlag`, so it is
recomputed identically on every load. -/
theorem claim_C1_churn_from_attrition_flag (raw : DataFrame) (flags : List Value)
    (h : getCol raw "Attrition_Flag" = some flags) :
    ∃ df, import_data raw = .ok df ∧
      getCol df "Churn" = some (flags.map churnOfFlag) ∧
      ∀ i, i < flags.length →
        ((flags.map churnOfFlag).getD i (Value.num 0) = Value.num 1 ↔
          flags.getD i (Value.str "") ≠ Value.str "Existing Customer") ∧
        ((flags.map churnOfFlag).getD i (Value.num 0) = Value.num 0 ↔
          flags.getD i (Value.str "") = Value.str "Existing Customer") := by
  refine ⟨setCol raw "Churn" (flags.map churnOfFlag), ?_, ?_, ?_⟩
  · simp [import_data, h]
  · exact getCol_setCol_same raw "Churn" (flags.map churnOfFlag)
  · intro i hi
    have hlen : i < (flags.map churnOfFlag).length := by simpa using hi
    rw [List.getD_eq_getElem _ _ hlen, List.getD_eq_getElem _ _ hi, List.getElem_map]
    by_cases hf : flags[i] = Value.str "Existing Customer" <;>
      simp [churnOfFlag, hf]

/-- Witness for claim C1 at a concrete two-row table. -/
theorem claim_C1_witness :
    getCol sampleRaw "Attrition_Flag" = some sampleFlags ∧
    (∃ df, import_data sampleRaw = .ok df ∧
      getCol df "Churn" = some (sampleFlags.map churnOfFlag) ∧
      ∀ i, i < sampleFlags.length →
        ((sampleFlags.map churnOfFlag).getD i (Value.num 0) = Value.num 1 ↔
          sampleFlags.getD i (Value.str "") ≠ Value.str "Existing Customer") ∧
        ((sampleFlags.map churnOfFlag).getD i (Value.num 0) = Value.num 0 ↔
          sampleFlags.getD i (Value.str "") = Value.str "Existing Customer")) :=
  ⟨rfl, claim_C1_churn_from_attrition_flag sampleRaw sampleFlags rfl⟩

theorem encodeCategory_ok (df out : DataFrame) (category response : String)
    (h : encodeCategory df category response = .ok out) :
    ∃ cats churn, getCol df category = some cats ∧ getCol df "Churn" = some churn ∧
      out = setCol df (encTarget category response) (encodedCol cats churn) := by
  cases hc : getCol df category with
  | none => simp [encodeCategory, hc] at h
  | some cats =>
    cases hch : getCol df "Churn" with
    | none => simp [encodeCategory, hc, hch] at h
    | some churn =>
      simp [encodeCategory, hc, hch] at h
      exact ⟨cats, churn, rfl, rfl, h.symm⟩

theorem encoderLoop_frame (lst : List String) (df out : DataFrame) (response name : String)
    (hname : ∀ c ∈ lst, encTarget c response ≠ name)
    (h : encoderLoop df lst response = .ok out) :
    getCol out name = getCol df name := by
  induction lst generalizing df with
  | nil =>
    simp [encoderLoop] at h
    rw [h]
  | cons c rest ih =>
    simp only [encoderLoop] at h
    cases henc : encodeCategory df c response with
    | error e => rw [henc] at h; exact absurd h (by simp)
    | ok df2 =>
      rw [henc] at h
      have h3 : encoderLoop df2 rest response = .ok out := h
      obtain ⟨cats, churn, _, _, hdf2⟩ := encodeCategory_ok df df2 c response henc
      have h2 := ih df2 (fun c2 hc2 => hname c2 (List.mem_cons_of_mem _ hc2)) h3
      rw [h2, hdf2,
        getCol_setCol_other df (encTarget c response) name (encodedCol cats churn)
          (hname c (List.mem_cons_self _ _))]

theorem deepCopy_eq (df : DataFrame) : deepCopy df = df := by
  simp [deepCopy]

/-- Claim C6: `encoder_helper` leaves the caller's table unmodified: every
write of its loop targets the deep copy, so after the call every cell of
the caller's dataframe equals its value before the call; moreover, in the
returned table every column whose name is not a write target of the loop
is unchanged from the input. -/
theorem claim_C6_encoder_frame (dataframe : DataFrame) (category_lst : List String)
    (response : String) :
    (encoder_helper_call dataframe category_lst response).1 = dataframe ∧
    (∀ name, getCol (encoder_helper_call dataframe category_lst response).1 name =
      getCol dataframe name) ∧
    (∀ name, (∀ c ∈ category_lst, encTarget c response ≠ name) →
      match (encoder_helper_call dataframe category_lst response).2 with
      | .ok out => getCol out name = getCol dataframe name
      | .error e => True) := by
  refine ⟨rfl, fun name => rfl, fun name hname => ?_⟩
  cases h : (encoder_helper_call dataframe category_lst response).2 with
  | error e => exact trivial
  | ok out =>
    have h2 : encoderLoop (deepCopy dataframe) category_lst response = .ok out := h
    rw [deepCopy_eq] at h2
    exact encoderLoop_frame category_lst dataframe out response name hname h2

/-- Witness for claim C6: the `Churn` column is not a write target of the
standard call, so it is unchanged in the encoder output. -/
theorem claim_C6_witness :
    (∀ c ∈ cat_columns, encTarget c "Churn" ≠ "Churn") ∧
    (match (encoder_helper_call sampleEnc cat_columns "Churn").2 with
      | .ok out => getCol out "Churn" = getCol sampleEnc "Churn"
      | .error e => True) :=
  ⟨by decide,
   (claim_C6_encoder_frame sampleEnc cat_columns "Churn").2.2 "Churn" (by decide)⟩

/-- Claim C9 counterexample: it is not the case that both classifier
constructions pass seed 42: the `LogisticRegression` call passes no
`random_state` although the class accepts one, so its seed argument keeps
the sklearn default `None`. -/
theorem claim_C9_counterexample :
    ¬ (rfc.random_state = some 42 ∧ lrc.random_state = some 42) := by
  simp [rfc, lrc]

/-- Claim C9 as amended: the random-forest classifier is constructed with
seed 42 (which also governs its feature-sampling randomness), while the
logistic regression is constructed without an explicit seed (its
`random_state` is left at the default `None`); its only keywords are
`n_jobs=-1` and `max_iter=1000`. -/
theorem claim_C9_amended :
    rfc.random_state = some 42 ∧ lrc.random_state = none ∧
    lrc.max_iter = 1000 ∧ rfc.n_jobs = some (-1) ∧ lrc.n_jobs = some (-1) :=
  ⟨rfl, rfl, rfl, rfl, rfl⟩

/-- Claim C5, evaluated on concrete data (the code bug): with a report
function that yields "TRAIN-REPORT" on the two-row train labels and
"TEST-REPORT" on the one-row test labels, the random-forest figure puts
the train report directly under its "Train" heading and the test report
under its "Test" heading, but the logistic-regression figure puts the
TEST report under "Logistic Regression Train" and the TRAIN report under
"Logistic Regression Test": the two blocks are swapped. -/
theorem claim_C5_logistic_reports_swapped :
    (blockUnder
      (rf_results_figure (fun y _ => if y.length = 2 then "TRAIN-REPORT" else "TEST-REPORT")
        [Value.num 0, Value.num 1] [Value.num 0] [Value.num 0, Value.num 1] [Value.num 0])
      "Random Forest Train" = some "TRAIN-REPORT") ∧
    (blockUnder
      (rf_results_figure (fun y _ => if y.length = 2 then "TRAIN-REPORT" else "TEST-REPORT")
        [Value.num 0, Value.num 1] [Value.num 0] [Value.num 0, Value.num 1] [Value.num 0])
      "Random Forest Test" = some "TEST-REPORT") ∧
    (blockUnder
      (logistic_results_figure (fun y _ => if y.length = 2 then "TRAIN-REPORT" else "TEST-REPORT")
        [Value.num 0, Value.num 1] [Value.num 0] [Value.num 0, Value.num 1] [Value.num 0])
      "Logistic Regression Train" = some "TEST-REPORT") ∧
    (blockUnder
      (logistic_results_figure (fun y _ => if y.length = 2 then "TRAIN-REPORT" else "TEST-REPORT")
        [Value.num 0, Value.num 1] [Value.num 0] [Value.num 0, Value.num 1] [Value.num 0])
      "Logistic Regression Test" = some "TRAIN-REPORT") := by
  refine ⟨?_, ?_, ?_, ?_⟩ <;> decide

/-- Claim C7: the train/test split inside `perform_feature_engineering`
passes the fixed seed 42, so its outcome does not depend on ambient
randomness: two runs on identical input produce identical partitions; the
same holds for `train_test_split` itself whenever an explicit seed is
passed. -/
theorem claim_C7_split_deterministic (dataframe : DataFrame) (response : String)
    (e1 e2 : Nat) :
    perform_feature_engineering e1 dataframe response =
      perform_feature_engineering e2 dataframe response ∧
    (∀ (s : Nat) (tsize : ℚ) (features : DataFrame) (label : List Value),
      train_test_split e1 (some s) tsize features label =
        train_test_split e2 (some s) tsize features label) :=
  ⟨rfl, fun s tsize features label => rfl⟩

theorem encoderLoop_spec (response : String) (churn : List Value) :
    ∀ (lst : List String) (df : DataFrame),
    lst.Nodup →
    (∀ c ∈ lst, encTarget c response ≠ "Churn") →
    (∀ c1 ∈ lst, ∀ c2 ∈ lst, c1 ≠ c2 → encTarget c1 response ≠ c2) →
    (∀ c1 ∈ lst, ∀ c2 ∈ lst, encTarget c1 response = encTarget c2 response → c1 = c2) →
    getCol df "Churn" = some churn →
    (∀ c ∈ lst, (getCol df c).isSome) →
    ∃ out, encoderLoop df lst response = .ok out ∧
      ∀ c ∈ lst, ∀ cats, getCol df c = some cats →
        getCol out (encTarget c response) = some (encodedCol cats churn) := by
  intro lst
  induction lst with
  | nil =>
    intro df _ _ _ _ _ _
    exact ⟨df, rfl, by simp⟩
  | cons c0 rest ih =>
    intro df hnd hsafe hcat hinj hch hpres
    obtain ⟨cats0, hcats0⟩ := Option.isSome_iff_exists.mp (hpres c0 (List.mem_cons_self _ _))
    have henc : encodeCategory df c0 response =
        .ok (setCol df (encTarget c0 response) (encodedCol cats0 churn)) := by
      simp [encodeCategory, hcats0, hch]
    have hc0notrest : c0 ∉ rest := (List.nodup_cons.mp hnd).1
    have hndrest : rest.Nodup := (List.nodup_cons.mp hnd).2
    have hch2 : getCol (setCol df (encTarget c0 response) (encodedCol cats0 churn))
        "Churn" = some churn := by
      rw [getCol_setCol_other _ _ _ _ (hsafe c0 (List.mem_cons_self _ _))]
      exact hch
    have hkeep : ∀ c2 ∈ rest,
        getCol (setCol df (encTarget c0 response) (encodedCol cats0 churn)) c2 =
          getCol df c2 := by
      intro c2 hc2
      have hne : encTarget c0 response ≠ c2 := by
        by_cases he : c0 = c2
        · exact absurd (he ▸ hc2) hc0notrest
        · exact hcat c0 (List.mem_cons_self _ _) c2 (List.mem_cons_of_mem _ hc2) he
      exact getCol_setCol_other _ _ _ _ hne
    have hpres2 : ∀ c2 ∈ rest,
        (getCol (setCol df (encTarget c0 response) (encodedCol cats0 churn)) c2).isSome := by
      intro c2 hc2
      rw [hkeep c2 hc2]
      exact hpres c2 (List.mem_cons_of_mem _ hc2)
    obtain ⟨out, hout, hprop⟩ :=
      ih (setCol df (encTarget c0 response) (encodedCol cats0 churn)) hndrest
        (fun c hc => hsafe c (List.mem_cons_of_mem _ hc))
        (fun c1 hc1 c2 hc2 hne =>
          hcat c1 (List.mem_cons_of_mem _ hc1) c2 (List.mem_cons_of_mem _ hc2) hne)
        (fun c1 hc1 c2 hc2 heq =>
          hinj c1 (List.mem_cons_of_mem _ hc1) c2 (List.mem_cons_of_mem _ hc2) heq)
        hch2 hpres2
    refine ⟨out, ?_, ?_⟩
    · simp only [encoderLoop]
      rw [henc]
      exact hout
    · intro c hc cats hcats
      rcases List.mem_cons.mp hc with hc | hc
      · subst hc
        have hcc : cats = cats0 := by
          rw [hcats0] at hcats
          exact (Option.some.inj hcats).symm
      
        have hframe : getCol out (encTarget c response) =
            getCol (setCol df (encTarget c response) (encodedCol cats0 churn))
              (encTarget c response) := by
          apply encoderLoop_frame rest _ out response _ ?_ hout
          intro c2 hc2 heq
          exact hc0notrest
            ((hinj c2 (List.mem_cons_of_mem _ hc2) c (List.mem_cons_self _ _) heq) ▸ hc2)
        rw [hframe, getCol_setCol_same, hcc]
      · have hprev := hprop c hc cats (by rw [hkeep c hc]; exact hcats)
        exact hprev

/-- Claim C2: for every table with a `Churn` column and every categorical
column in `category_lst` (categorical names pairwise distinct and not
colliding with `Churn` or with the write targets of other categories — as
in the pipeline's call), `encoder_helper` assigns every row, in the
new/replaced column, the arithmetic mean of `Churn` over all rows of the
full pre-split input sharing that row's category value; consequently two
rows sharing a category with `Churn` values 0 and 1 both encode to 1/2,
and a category occurring in exactly one row encodes to that row's own
`Churn` value, with no smoothing. -/
theorem claim_C2_mean_target_encoding :
    (∀ (df : DataFrame) (category_lst : List String) (response : String) (churn : List Value),
      category_lst.Nodup →
      (∀ c ∈ category_lst, encTarget c response ≠ "Churn") →
      (∀ c1 ∈ category_lst, ∀ c2 ∈ category_lst, c1 ≠ c2 → encTarget c1 response ≠ c2) →
      (∀ c1 ∈ category_lst, ∀ c2 ∈ category_lst,
        encTarget c1 response = encTarget c2 response → c1 = c2) →
      getCol df "Churn" = some churn →
      (∀ c ∈ category_lst, (getCol df c).isSome) →
      ∃ out, encoder_helper df category_lst response = .ok out ∧
        ∀ c ∈ category_lst, ∀ cats, getCol df c = some cats →
          getCol out (encTarget c response) = some (encodedCol cats churn)) ∧
    groupMean [Value.str "A", Value.str "A"] [Value.num 0, Value.num 1] (Value.str "A")
      = mkRat 1 2 ∧
    (∀ q : ℚ, groupMean [Value.str "B"] [Value.num q] (Value.str "B") = q) := by
  refine ⟨?_, ?_, ?_⟩
  · intro df category_lst response churn hnd hsafe hcat hinj hch hpres
    have h := encoderLoop_spec response churn category_lst df hnd hsafe hcat hinj hch hpres
    rw [show encoderLoop df category_lst response =
      encoder_helper df category_lst response from by
        rw [encoder_helper, deepCopy_eq]] at h
    exact h
  · simp only [groupMean, meanQ, valToQ, List.zip, List.zipWith, List.filter, List.map]
    norm_num
  · intro q
    simp only [groupMean, meanQ, valToQ, List.zip, List.zipWith, List.filter, List.map]
    norm_num

/-- Witness for claim C2 at a concrete two-row table: one categorical
column `Gender`, churn values 0 and 1. -/
theorem claim_C2_witness :
    (["Gender"] : List String).Nodup ∧
    (∀ c ∈ (["Gender"] : List String), encTarget c "Churn" ≠ "Churn") ∧
    (∀ c1 ∈ (["Gender"] : List String), ∀ c2 ∈ (["Gender"] : List String),
      c1 ≠ c2 → encTarget c1 "Churn" ≠ c2) ∧
    (∀ c1 ∈ (["Gender"] : List String), ∀ c2 ∈ (["Gender"] : List String),
      encTarget c1 "Churn" = encTarget c2 "Churn" → c1 = c2) ∧
    getCol sampleEnc "Churn" = some [Value.num 0, Value.num 1] ∧
    (∀ c ∈ (["Gender"] : List String), (getCol sampleEnc c).isSome) ∧
    (∃ out, encoder_helper sampleEnc ["Gender"] "Churn" = .ok out ∧
      ∀ c ∈ (["Gender"] : List String), ∀ cats, getCol sampleEnc c = some cats →
        getCol out (encTarget c "Churn") = some (encodedCol cats [Value.num 0, Value.num 1])) :=
  ⟨by decide, by decide, by decide, by decide, rfl, by decide,
   claim_C2_mean_target_encoding.1 sampleEnc ["Gender"] "Churn" [Value.num 0, Value.num 1]
     (by decide) (by decide) (by decide) (by decide) rfl (by decide)⟩

theorem selectCols_names (names : List String) (df f : DataFrame)
    (h : selectCols df names = .ok f) : f.map Prod.fst = names := by
  induction names generalizing f with
  | nil =>
    simp [selectCols] at h
    simp [← h]
  | cons n rest ih =>
    cases hg : getCol df n with
    | none => simp [selectCols, hg] at h
    | some vs =>
      cases hs : selectCols df rest with
      | error e => simp [selectCols, hg, hs] at h
      | ok f2 =>
        simp [selectCols, hg, hs] at h
        simp [← h, ih f2 hs]

theorem selectCols_ok (names : List String) (df : DataFrame)
    (h : ∀ c ∈ names, (getCol df c).isSome) :
    ∃ f, selectCols df names = .ok f := by
  induction names with
  | nil => exact ⟨[], rfl⟩
  | cons n rest ih =>
    obtain ⟨vs, hvs⟩ := Option.isSome_iff_exists.mp (h n (List.mem_cons_self _ _))
    obtain ⟨f2, hf2⟩ := ih (fun c hc => h c (List.mem_cons_of_mem _ hc))
    exact ⟨(n, vs) :: f2, by simp [selectCols, hvs, hf2]⟩

theorem selectRows_names (df : DataFrame) (idxs : List Nat) :
    (selectRows df idxs).map Prod.fst = df.map Prod.fst := by
  simp [selectRows]

/-- Claim C3: the feature matrix produced by `perform_feature_engineering`
has exactly the 19 hardcoded columns (14 raw numeric ones, then the 5
encoded `_Churn` columns), in exactly that order, for both the train and
the test part; moreover the selection succeeds on every table in which all
19 columns are present. -/
theorem claim_C3_feature_columns :
    keep_cols.length = 19 ∧
    keep_cols =
      ["Customer_Age", "Dependent_count", "Months_on_book", "Total_Relationship_Count",
       "Months_Inactive_12_mon", "Contacts_Count_12_mon", "Credit_Limit",
       "Total_Revolving_Bal", "Avg_Open_To_Buy", "Total_Amt_Chng_Q4_Q1",
       "Total_Trans_Amt", "Total_Trans_Ct", "Total_Ct_Chng_Q4_Q1",
       "Avg_Utilization_Ratio", "Gender_Churn", "Education_Level_Churn",
       "Marital_Status_Churn", "Income_Category_Churn", "Card_Category_Churn"] ∧
    (∀ (entropy : Nat) (df : DataFrame) (response : String),
      match perform_feature_engineering entropy df response with
      | .ok out => out.1.map Prod.fst = keep_cols ∧ out.2.1.map Prod.fst = keep_cols
      | .error e => True) ∧
    (∀ df : DataFrame, (∀ c ∈ keep_cols, (getCol df c).isSome) →
      ∃ f, selectCols df keep_cols = .ok f ∧ f.map Prod.fst = keep_cols) := by
  refine ⟨rfl, rfl, ?_, ?_⟩
  · intro entropy df response
    cases henc : encoder_helper df cat_columns response with
    | error e => simp [perform_feature_engineering, henc]
    | ok encoded =>
      cases hch : getCol encoded "Churn" with
      | none => simp [perform_feature_engineering, henc, hch]
      | some label =>
        cases hsel : selectCols encoded keep_cols with
        | error e => simp [perform_feature_engineering, henc, hch, hsel]
        | ok features =>
          simp only [perform_feature_engineering, henc, hch, hsel]
          have hn := selectCols_names keep_cols encoded features hsel
          constructor
          · rw [show (train_test_split entropy (some 42) test_size features label).1 =
              selectRows features
                ((shufflePerm ((some 42).getD entropy) label.length).drop
                  (Nat.ceil (test_size * (label.length : ℚ)))) from rfl]
            rw [selectRows_names, hn]
          · rw [show (train_test_split entropy (some 42) test_size features label).2.1 =
              selectRows features
                ((shufflePerm ((some 42).getD entropy) label.length).take
                  (Nat.ceil (test_size * (label.length : ℚ)))) from rfl]
            rw [selectRows_names, hn]
  · intro df h
    obtain ⟨f, hf⟩ := selectCols_ok keep_cols df h
    exact ⟨f, hf, selectCols_names keep_cols df f hf⟩

/-- Witness for claim C3: on a table holding all 19 feature columns the
selection succeeds and returns them in the hardcoded order. -/
theorem claim_C3_witness :
    (∀ c ∈ keep_cols, (getCol sampleFeatures c).isSome) ∧
    (∃ f, selectCols sampleFeatures keep_cols = .ok f ∧ f.map Prod.fst = keep_cols) :=
  ⟨by decide, claim_C3_feature_columns.2.2.2 sampleFeatures (by decide)⟩

theorem shufflePerm_perm (seed n : Nat) : (shufflePerm seed n).Perm (List.range n) :=
  List.mergeSort_perm (List.range n) _

theorem shufflePerm_length (seed n : Nat) : (shufflePerm seed n).length = n := by
  rw [(shufflePerm_perm seed n).length_eq, List.length_range]

theorem test_size_eq : test_size = 3 / 10 := by
  norm_num [test_size]

theorem testCount_le (n : Nat) : testCount n ≤ n := by
  rw [testCount, test_size_eq]
  refine Nat.ceil_le.mpr ?_
  have h : (0:ℚ) ≤ (n : ℚ) := Nat.cast_nonneg n
  nlinarith

theorem testCount_lower (n : Nat) : 3 * n ≤ 10 * testCount n := by
  have h := Nat.le_ceil (test_size * (n : ℚ))
  rw [test_size_eq] at h
  have h2 : (3:ℚ) * n ≤ 10 * (testCount n : ℚ) := by
    rw [testCount, test_size_eq]
    nlinarith
  exact_mod_cast h2

theorem testCount_upper (n : Nat) : 10 * testCount n < 3 * n + 10 := by
  have hnn : (0:ℚ) ≤ 3 / 10 * (n : ℚ) := by positivity
  have h := Nat.ceil_lt_add_one hnn
  have h2 : (10:ℚ) * (testCount n : ℚ) < 3 * n + 10 := by
    rw [testCount, test_size_eq]
    nlinarith
  exact_mod_cast h2

theorem encoderLoop_wf (lst : List String) (df out : DataFrame) (response : String)
    (n : Nat) (hwf : Wf df n) (h : encoderLoop df lst response = .ok out) :
    Wf out n := by
  induction lst generalizing df with
  | nil =>
    simp [encoderLoop] at h
    rw [← h]
    exact hwf
  | cons c rest ih =>
    simp only [encoderLoop] at h
    cases henc : encodeCategory df c response with
    | error e => rw [henc] at h; exact absurd h (by simp)
    | ok df2 =>
      rw [henc] at h
      have h3 : encoderLoop df2 rest response = .ok out := h
      obtain ⟨cats, churn, hcats, _, hdf2⟩ := encodeCategory_ok df df2 c response henc
      have hclen : cats.length = n := hwf (c, cats) (getCol_mem df c cats hcats)
      have hwf2 : Wf df2 n := by
        rw [hdf2]
        exact setCol_wf df _ _ n hwf (by simp [encodedCol, hclen])
      exact ih df2 hwf2 h3

theorem selectCols_wf (names : List String) (df f : DataFrame) (n : Nat)
    (hwf : Wf df n) (h : selectCols df names = .ok f) : Wf f n := by
  induction names generalizing f with
  | nil =>
    simp [selectCols] at h
    rw [h]
    intro p hp
    simp at hp
  | cons m rest ih =>
    cases hg : getCol df m with
    | none => simp [selectCols, hg] at h
    | some vs =>
      cases hs : selectCols df rest with
      | error e => simp [selectCols, hg, hs] at h
      | ok f2 =>
        simp [selectCols, hg, hs] at h
        intro p hp
        rw [← h] at hp
        rcases List.mem_cons.mp hp with hp | hp
        · rw [hp]
          exact hwf (m, vs) (getCol_mem df m vs hg)
        · exact ih f2 hs p hp

theorem selectIdx_length (vs : List Value) (idxs : List Nat) :
    (selectIdx vs idxs).length = idxs.length := by
  simp [selectIdx]

theorem selectRows_wf (df : DataFrame) (idxs : List Nat) :
    Wf (selectRows df idxs) idxs.length := by
  intro p hp
  simp only [selectRows, List.mem_map] at hp
  obtain ⟨q, _, hq⟩ := hp
  rw [← hq]
  exact selectIdx_length q.2 idxs

/-- Claim C4: whenever `perform_feature_engineering` succeeds on an
`n`-row table, the train split and the test split partition the rows:
their row counts sum to `n`, the test part has `ceil(0.3 * n)` rows and
the train part the remaining rows, which is a 70/30 proportion up to
rounding (`10 * testCount n` lies in `[3n, 3n + 10)`). -/
theorem claim_C4_split_counts (entropy : Nat) (df : DataFrame) (response : String)
    (n : Nat) (hwf : Wf df n) :
    match perform_feature_engineering entropy df response with
    | .ok out =>
        out.2.2.1.length + out.2.2.2.length = n ∧
        out.2.2.2.length = testCount n ∧
        out.2.2.1.length = n - testCount n ∧
        Wf out.1 (n - testCount n) ∧
        Wf out.2.1 (testCount n) ∧
        3 * n ≤ 10 * testCount n ∧
        10 * testCount n < 3 * n + 10
    | .error e => True := by
  cases henc : encoder_helper df cat_columns response with
  | error e => simp [perform_feature_engineering, henc]
  | ok encoded =>
    have hwfe : Wf encoded n := by
      have h2 : encoderLoop df cat_columns response = .ok encoded := by
        rw [← deepCopy_eq df]
        exact henc
      exact encoderLoop_wf cat_columns df encoded response n hwf h2
    cases hch : getCol encoded "Churn" with
    | none => simp [perform_feature_engineering, henc, hch]
    | some label =>
      have hlab : label.length = n := hwfe ("Churn", label) (getCol_mem encoded "Churn" label hch)
      cases hsel : selectCols encoded keep_cols with
      | error e => simp [perform_feature_engineering, henc, hch, hsel]
      | ok features =>
        simp only [perform_feature_engineering, henc, hch, hsel]
        have hperm : (shufflePerm 42 label.length).length = label.length :=
          shufflePerm_length 42 label.length
        have htc : Nat.ceil (test_size * (label.length : ℚ)) = testCount n := by
          rw [hlab, testCount]
        have hle : testCount n ≤ n := testCount_le n
        have htake : ((shufflePerm 42 label.length).take
            (Nat.ceil (test_size * (label.length : ℚ)))).length = testCount n := by
          rw [List.length_take, hperm, htc, hlab]
          exact Nat.min_eq_left hle
        have hdrop : ((shufflePerm 42 label.length).drop
            (Nat.ceil (test_size * (label.length : ℚ)))).length = n - testCount n := by
          rw [List.length_drop, hperm, htc, hlab]
        refine ⟨?_, ?_, ?_, ?_, ?_, testCount_lower n, testCount_upper n⟩
        · show (selectIdx label ((shufflePerm 42 label.length).drop
              (Nat.ceil (test_size * (label.length : ℚ))))).length +
            (selectIdx label ((shufflePerm 42 label.length).take
              (Nat.ceil (test_size * (label.length : ℚ))))).length = n
          rw [selectIdx_length, selectIdx_length, htake, hdrop]
          omega
        · show (selectIdx label ((shufflePerm 42 label.length).take
              (Nat.ceil (test_size * (label.length : ℚ))))).length = testCount n
          rw [selectIdx_length, htake]
        · show (selectIdx label ((shufflePerm 42 label.length).drop
              (Nat.ceil (test_size * (label.length : ℚ))))).length = n - testCount n
          rw [selectIdx_length, hdrop]
        · show Wf (selectRows features ((shufflePerm 42 label.length).drop
              (Nat.ceil (test_size * (label.length : ℚ))))) (n - testCount n)
          rw [← hdrop]
          exact selectRows_wf features _
        · show Wf (selectRows features ((shufflePerm 42 label.length).take
              (Nat.ceil (test_size * (label.length : ℚ))))) (testCount n)
          rw [← htake]
          exact selectRows_wf features _

/-- Witness for claim C4 at a concrete well-formed two-row table carrying
the full raw schema: the pipeline succeeds on it (second conjunct), and
the split of its two rows is one train row and one test row. -/
theorem claim_C4_witness :
    Wf sampleWide 2 ∧
    (perform_feature_engineering 0 sampleWide "Churn").isOk = true ∧
    (match perform_feature_engineering 0 sampleWide "Churn" with
     | .ok out =>
         out.2.2.1.length + out.2.2.2.length = 2 ∧
         out.2.2.2.length = testCount 2 ∧
         out.2.2.1.length = 2 - testCount 2 ∧
         Wf out.1 (2 - testCount 2) ∧
         Wf out.2.1 (testCount 2) ∧
         3 * 2 ≤ 10 * testCount 2 ∧
         10 * testCount 2 < 3 * 2 + 10
     | .error e => True) :=
  ⟨by decide, rfl, claim_C4_split_counts 0 sampleWide "Churn" 2 (by decide)⟩

theorem argsortLe_trans (xs : List ℚ) (a b c : Nat) (h1 : argsortLe xs a b = true)
    (h2 : argsortLe xs b c = true) : argsortLe xs a c = true := by
  simp only [argsortLe, decide_eq_true_eq] at h1 h2 ⊢
  rcases h1 with h1 | ⟨h1e, h1i⟩ <;> rcases h2 with h2 | ⟨h2e, h2i⟩
  · exact Or.inl (lt_trans h1 h2)
  · exact Or.inl (by rw [← h2e]; exact h1)
  · exact Or.inl (by rw [h1e]; exact h2)
  · exact Or.inr ⟨h1e.trans h2e, le_trans h1i h2i⟩

theorem argsortLe_total (xs : List ℚ) (a b : Nat) :
    (argsortLe xs a b || argsortLe xs b a) = true := by
  simp only [argsortLe, Bool.or_eq_true, decide_eq_true_eq]
  rcases lt_trichotomy (xs.getD a 0) (xs.getD b 0) with h | h | h
  · exact Or.inl (Or.inl h)
  · rcases Nat.le_total a b with hi | hi
    · exact Or.inl (Or.inr ⟨h, hi⟩)
    · exact Or.inr (Or.inr ⟨h.symm, hi⟩)
  · exact Or.inr (Or.inl h)

theorem npArgsort_sorted (xs : List ℚ) :
    List.Pairwise (fun i j => xs.getD i 0 ≤ xs.getD j 0) (npArgsort xs) := by
  have hp := List.sorted_mergeSort (argsortLe_trans xs) (argsortLe_total xs)
    (List.range xs.length)
  refine hp.imp ?_
  intro i j hij
  simp only [argsortLe, decide_eq_true_eq] at hij
  rcases hij with h | ⟨h, _⟩
  · exact le_of_lt h
  · exact le_of_eq h

/-- Claim C8: `feature_importance_plot` renders the importance scores in
descending order, and the bars and the x-axis labels are both produced by
the same descending argsort of the scores: bar `k` has the height
`importances[indices[k]]` and the label `columns[indices[k]]`, where
`indices` ranges over all feature positions exactly once. -/
theorem claim_C8_importance_plot_sorted (importances : List ℚ) (columns : List String) :
    (npArgsort importances).reverse.Perm (List.range importances.length) ∧
    (feature_importance_plot importances columns).heights =
      (npArgsort importances).reverse.map (fun i => importances.getD i 0) ∧
    (feature_importance_plot importances columns).labels =
      (npArgsort importances).reverse.map (fun i => columns.getD i "") ∧
    List.Pairwise (fun a b => b ≤ a) (feature_importance_plot importances columns).heights := by
  refine ⟨?_, rfl, rfl, ?_⟩
  · exact (List.reverse_perm _).trans (List.mergeSort_perm _ _)
  · show List.Pairwise (fun a b => b ≤ a)
      ((npArgsort importances).reverse.map (fun i => importances.getD i 0))
    refine List.pairwise_map.mpr ?_
    refine List.pairwise_reverse.mpr ?_
    exact npArgsort_sorted importances

theorem selectCols_error_of_missing (names : List String) (df : DataFrame) (name : String)
    (hmem : name ∈ names) (hnone : getCol df name = none) :
    ∃ m, selectCols df names = .error m := by
  induction names with
  | nil => simp at hmem
  | cons n rest ih =>
    rcases List.mem_cons.mp hmem with h | h
    · subst h
      exact ⟨"KeyError: " ++ name, by simp [selectCols, hnone]⟩
    · cases hg : getCol df n with
      | none => exact ⟨"KeyError: " ++ n, by simp [selectCols, hg]⟩
      | some vs =>
        obtain ⟨m, hm⟩ := ih h
        exact ⟨m, by simp [selectCols, hg, hm]⟩

theorem encTarget_cat_ne_gender_churn (response : String) (hne : response ≠ "")
    (hnc : response ≠ "Churn") :
    ∀ c ∈ cat_columns, encTarget c response ≠ "Gender_Churn" := by
  intro c hc
  simp only [encTarget, if_neg hne]
  simp only [cat_columns, List.mem_cons, List.not_mem_nil, or_false] at hc
  rcases hc with rfl | rfl | rfl | rfl | rfl
  · intro h
    have hd := congrArg String.data h
    rw [String.data_append, String.data_append] at hd
    have h2 : ("Gender".data ++ "_".data) ++ response.data =
        ("Gender".data ++ "_".data) ++ "Churn".data := by
      rw [hd]
      rfl
    have h4 : response.data = "Churn".data := List.append_cancel_left h2
    exact hnc (by cases response; cases h4; rfl)
  · intro h
    have hl := congrArg String.length h
    rw [String.length_append, String.length_append] at hl
    rw [show ("Education_Level" : String).length = 15 from rfl,
      show ("_" : String).length = 1 from rfl,
      show ("Gender_Churn" : String).length = 12 from rfl] at hl
    omega
  · intro h
    have hl := congrArg String.length h
    rw [String.length_append, String.length_append] at hl
    rw [show ("Marital_Status" : String).length = 14 from rfl,
      show ("_" : String).length = 1 from rfl,
      show ("Gender_Churn" : String).length = 12 from rfl] at hl
    omega
  · intro h
    have hl := congrArg String.length h
    rw [String.length_append, String.length_append] at hl
    rw [show ("Income_Category" : String).length = 15 from rfl,
      show ("_" : String).length = 1 from rfl,
      show ("Gender_Churn" : String).length = 12 from rfl] at hl
    omega
  · intro h
    have hl := congrArg String.length h
    rw [String.length_append, String.length_append] at hl
    rw [show ("Card_Category" : String).length = 13 from rfl,
      show ("_" : String).length = 1 from rfl,
      show ("Gender_Churn" : String).length = 12 from rfl] at hl
    omega

/-- Claim C10: on a table that does not already contain a `Gender_Churn`
column (the raw schema has the 14 numeric and 5 categorical columns only),
calling `perform_feature_engineering` with any non-empty response other
than "Churn" fails with a key-not-found error before returning: the
encoder writes only `<category>_<response>` columns, while the hardcoded
feature list demands the `_Churn`-suffixed names. -/
theorem claim_C10_response_mismatch (entropy : Nat) (df : DataFrame) (response : String)
    (hne : response ≠ "") (hnc : response ≠ "Churn")
    (hmiss : getCol df "Gender_Churn" = none) :
    ∃ msg, perform_feature_engineering entropy df response = .error msg := by
  cases henc : encoder_helper df cat_columns response with
  | error e => exact ⟨e, by simp [perform_feature_engineering, henc]⟩
  | ok encoded =>
    have h2 : encoderLoop df cat_columns response = .ok encoded := by
      rw [← deepCopy_eq df]
      exact henc
    have hfr : getCol encoded "Gender_Churn" = getCol df "Gender_Churn" :=
      encoderLoop_frame cat_columns df encoded response "Gender_Churn"
        (encTarget_cat_ne_gender_churn response hne hnc) h2
    have hmiss2 : getCol encoded "Gender_Churn" = none := by rw [hfr]; exact hmiss
    cases hch : getCol encoded "Churn" with
    | none => exact ⟨"KeyError: Churn", by simp [perform_feature_engineering, henc, hch]⟩
    | some label =>
      obtain ⟨m, hm⟩ := selectCols_error_of_missing keep_cols encoded "Gender_Churn"
        (by simp [keep_cols]) hmiss2
      exact ⟨m, by simp [perform_feature_engineering, henc, hch, hm]⟩

/-- Witness for claim C10: a concrete one-row table with the raw schema
and the response string "y". -/
theorem claim_C10_witness :
    (("y" : String) ≠ "") ∧ (("y" : String) ≠ "Churn") ∧
    getCol sampleFull "Gender_Churn" = none ∧
    (∃ msg, perform_feature_engineering 0 sampleFull "y" = .error msg) :=
  ⟨by decide, by decide, rfl,
   claim_C10_response_mismatch 0 sampleFull "y" (by decide) (by decide) rfl⟩
